import Mathlib

/-!
Verification development for the criptobot.coinbase trading core.

The definitions below are shallow embeddings, translated directly from the
Python sources, of:

* `PortfolioManager.add_position` / `close_position`
  (`portfolio_manager.py`),
* `PositionSizer.calculate_position_size` / `calculate_kelly_criterion`
  and `StopLossManager.update_trailing_stop` (`position_sizer.py`),
* `TechnicalIndicators.combine_signals` and `TechnicalIndicators.rsi`
  (`src/signals/indicators/technical_indicators.py`),
* the check/record pair of `RateLimiter.acquire`
  (`rate_limiter.py`), as an interleaving transition system.

Python floats are modelled by `ℚ` (the computations under scrutiny stay
exact there); the IEEE special values that the pandas RSI pipeline can
produce are modelled explicitly by `PVal`.  Python dicts keyed by symbol
are modelled by association lists.  Python `str.lower` is modelled by
`pyLower` (the relevant strings are ASCII).
-/

/-- ASCII model of Python `str.lower`, used by the sources as
`side.lower() == "buy"`. -/
def pyLower (s : String) : String := String.mk (s.data.map Char.toLower)

/-! ## Portfolio manager (`portfolio_manager.py`) -/

/-- The fields of `base_strategy.Position` that `portfolio_manager.py`
reads: symbol, side (`"buy"`/`"sell"`), size and entry price. -/
structure Position where
  symbol : String
  side : String
  size : ℚ
  entry_price : ℚ
deriving DecidableEq

/-- `AccountBalance` dataclass (the bookkeeping fields). -/
structure AccountBalance where
  total_balance : ℚ
  available_balance : ℚ
  reserved_balance : ℚ
deriving DecidableEq

/-- `TradeHistory` dataclass (the numeric fields recorded on close). -/
structure TradeRec where
  symbol : String
  side : String
  entry_price : ℚ
  exit_price : ℚ
  size : ℚ
  pnl : ℚ
deriving DecidableEq

/-- Payload of `InsufficientFundsException(required_amount, available_amount)`. -/
structure InsufficientFunds where
  required_amount : ℚ
  available_amount : ℚ
deriving DecidableEq

/-- The mutable state of `PortfolioManager` that the verified operations
read or write. -/
structure PortfolioManager where
  account_balance : AccountBalance
  positions : List (String × Position)
  trade_history : List TradeRec
  peak_balance : ℚ
  max_drawdown : ℚ
  total_trades : ℕ
  winning_trades : ℕ
  losing_trades : ℕ
  total_realized_pnl : ℚ
  daily_pnl : ℚ
deriving DecidableEq

/-- `PortfolioManager.__init__(initial_balance)`. -/
def mkPortfolio (initial_balance : ℚ) : PortfolioManager where
  account_balance :=
    { total_balance := initial_balance
      available_balance := initial_balance
      reserved_balance := 0 }
  positions := []
  trade_history := []
  peak_balance := initial_balance
  max_drawdown := 0
  total_trades := 0
  winning_trades := 0
  losing_trades := 0
  total_realized_pnl := 0
  daily_pnl := 0

/-- Lookup in a Python dict modelled as an association list
(`self.positions[symbol]` / `symbol in self.positions`). -/
def dictGet : List (String × Position) → String → Option Position
  | [], _ => none
  | (k', v') :: rest, k => if k' = k then some v' else dictGet rest k

/-- Assignment `self.positions[symbol] = position` (replace or append). -/
def dictSet : List (String × Position) → String → Position → List (String × Position)
  | [], k, v => [(k, v)]
  | (k', v') :: rest, k, v =>
    if k' = k then (k, v) :: rest else (k', v') :: dictSet rest k v

/-- Deletion `del self.positions[symbol]`. -/
def dictDel : List (String × Position) → String → List (String × Position)
  | [], _ => []
  | (k', v') :: rest, k =>
    if k' = k then rest else (k', v') :: dictDel rest k

/-- `PortfolioManager.add_position`.  Python raises
`InsufficientFundsException` before any state is mutated; we return the
would-be exception together with the (then unchanged) state. -/
def add_position (pm : PortfolioManager) (position : Position) :
    Option InsufficientFunds × PortfolioManager :=
  let required_value := position.size * position.entry_price
  if required_value > pm.account_balance.available_balance then
    (some { required_amount := required_value
            available_amount := pm.account_balance.available_balance }, pm)
  else
    (none,
      { pm with
        positions := dictSet pm.positions position.symbol position
        account_balance :=
          { pm.account_balance with
            available_balance := pm.account_balance.available_balance - required_value
            reserved_balance := pm.account_balance.reserved_balance + required_value } })

/-- The P&L formula inside `PortfolioManager.close_position`. -/
def pnlOf (position : Position) (exit_price : ℚ) : ℚ :=
  if position.side = "buy" then (exit_price - position.entry_price) * position.size
  else (position.entry_price - exit_price) * position.size

/-- `PortfolioManager.close_position(symbol, exit_price)`.  Returns the
P&L (`none` when the symbol has no open position, mirroring the early
`return None`) together with the updated state. -/
def close_position (pm : PortfolioManager) (symbol : String) (exit_price : ℚ) :
    Option ℚ × PortfolioManager :=
  match dictGet pm.positions symbol with
  | none => (none, pm)
  | some position =>
    let pnl := pnlOf position exit_price
    let close_value := position.size * exit_price
    let ab :=
      { total_balance := pm.account_balance.total_balance + pnl
        available_balance := pm.account_balance.available_balance + close_value
        reserved_balance :=
          pm.account_balance.reserved_balance - position.size * position.entry_price }
    let peak := if ab.total_balance > pm.peak_balance then ab.total_balance else pm.peak_balance
    let current_drawdown := (peak - ab.total_balance) / peak
    (some pnl,
      { account_balance := ab
        positions := dictDel pm.positions symbol
        trade_history := pm.trade_history ++
          [{ symbol := symbol, side := position.side, entry_price := position.entry_price
             exit_price := exit_price, size := position.size, pnl := pnl }]
        peak_balance := peak
        max_drawdown := max pm.max_drawdown current_drawdown
        total_trades := pm.total_trades + 1
        winning_trades := if pnl > 0 then pm.winning_trades + 1 else pm.winning_trades
        losing_trades := if pnl > 0 then pm.losing_trades else pm.losing_trades + 1
        total_realized_pnl := pm.total_realized_pnl + pnl
        daily_pnl := pm.daily_pnl + pnl })

/-- A sequence of `close_position` calls (the state part). -/
def applyCloses (pm : PortfolioManager) (closes : List (String × ℚ)) : PortfolioManager :=
  closes.foldl (fun s c => (close_position s c.1 c.2).2) pm

/-- Interleaved `add_position` / `close_position` calls on one portfolio. -/
inductive PortfolioOp where
  | add (position : Position)
  | close (symbol : String) (exit_price : ℚ)

/-- Apply one portfolio operation (state part only). -/
def applyOp (pm : PortfolioManager) : PortfolioOp → PortfolioManager
  | .add position => (add_position pm position).2
  | .close symbol exit_price => (close_position pm symbol exit_price).2

/-- Apply a sequence of portfolio operations. -/
def applyOps (pm : PortfolioManager) (ops : List PortfolioOp) : PortfolioManager :=
  ops.foldl applyOp pm

lemma dictGet_dictSet_self (l : List (String × Position)) (k : String) (v : Position) :
    dictGet (dictSet l k v) k = some v := by
  induction l with
  | nil => simp [dictSet, dictGet]
  | cons hd tl ih =>
    by_cases h : hd.1 = k
    · simp [dictSet, dictGet, h]
    · simp [dictSet, dictGet, h, ih]

/-- Demo long position (entry 50000, size 0.1) used in witnesses. -/
def demoLong : Position :=
  { symbol := "BTC-USD", side := "buy", size := 1/10, entry_price := 50000 }

/-- Demo short position with the same prices and size. -/
def demoShort : Position :=
  { symbol := "BTC-USD", side := "sell", size := 1/10, entry_price := 50000 }

/-- Portfolio holding the demo long position. -/
def longPM : PortfolioManager :=
  { mkPortfolio 10000 with positions := [("BTC-USD", demoLong)] }

/-- Portfolio holding the demo short position. -/
def shortPM : PortfolioManager :=
  { mkPortfolio 10000 with positions := [("BTC-USD", demoShort)] }

/-- Claim C4: `add_position` signals `InsufficientFunds` exactly when
`size * entry_price` exceeds the available balance; on that error the
ledger is unchanged, and on success exactly that notional moves from
`available_balance` to `reserved_balance` while the total balance is
untouched and the position is recorded under its symbol. -/
theorem add_position_spec (pm : PortfolioManager) (position : Position) :
    ((add_position pm position).1.isSome ↔
        position.size * position.entry_price > pm.account_balance.available_balance)
    ∧ (position.size * position.entry_price > pm.account_balance.available_balance →
        (add_position pm position).2 = pm)
    ∧ (¬ position.size * position.entry_price > pm.account_balance.available_balance →
        (add_position pm position).2.account_balance.available_balance
            = pm.account_balance.available_balance - position.size * position.entry_price
        ∧ (add_position pm position).2.account_balance.reserved_balance
            = pm.account_balance.reserved_balance + position.size * position.entry_price
        ∧ (add_position pm position).2.account_balance.total_balance
            = pm.account_balance.total_balance
        ∧ dictGet (add_position pm position).2.positions position.symbol = some position) := by
  by_cases h : position.size * position.entry_price > pm.account_balance.available_balance
  · simp [add_position, h]
  · simp [add_position, h, dictGet_dictSet_self]

/-- Witness for `add_position_spec`: adding the demo long position
(notional 5000) to a fresh 10000 portfolio succeeds and records it. -/
theorem add_position_spec_witness :
    ¬ demoLong.size * demoLong.entry_price > (mkPortfolio 10000).account_balance.available_balance
    ∧ dictGet (add_position (mkPortfolio 10000) demoLong).2.positions demoLong.symbol
        = some demoLong := by
  have h : ¬ demoLong.size * demoLong.entry_price >
      (mkPortfolio 10000).account_balance.available_balance := by
    norm_num [demoLong, mkPortfolio]
  exact ⟨h, ((add_position_spec (mkPortfolio 10000) demoLong).2.2 h).2.2.2⟩

/-- Claim C5: `close_position` returns `(exit - entry) * size` for a long
(`side = "buy"`) position and `(entry - exit) * size` otherwise. -/
theorem close_position_pnl (pm : PortfolioManager) (symbol : String) (exit_price : ℚ)
    (position : Position) (h : dictGet pm.positions symbol = some position) :
    (close_position pm symbol exit_price).1 =
      some (if position.side = "buy"
        then (exit_price - position.entry_price) * position.size
        else (position.entry_price - exit_price) * position.size) := by
  simp [close_position, h, pnlOf]

/-- Witness for `close_position_pnl`: entry 50000, exit 52000, size 0.1
yields P&L 200 for the long and -200 for the short. -/
theorem close_position_pnl_witness :
    (close_position longPM "BTC-USD" 52000).1 = some 200
    ∧ (close_position shortPM "BTC-USD" 52000).1 = some (-200) := by
  constructor
  · have h := close_position_pnl longPM "BTC-USD" 52000 demoLong
      (by simp [longPM, mkPortfolio, dictGet])
    rw [h]
    norm_num [demoLong]
  · have h := close_position_pnl shortPM "BTC-USD" 52000 demoShort
      (by simp [shortPM, mkPortfolio, dictGet])
    rw [h]
    norm_num [demoShort]
    decide

lemma close_position_md_mono (pm : PortfolioManager) (symbol : String) (e : ℚ) :
    pm.max_drawdown ≤ (close_position pm symbol e).2.max_drawdown := by
  cases h : dictGet pm.positions symbol with
  | none => simp [close_position, h]
  | some position =>
    simp only [close_position, h]
    exact le_max_left _ _

/-- Claim C7: `max_drawdown` is monotonically non-decreasing across any
sequence of `close_position` calls (each close replaces it with the max
of its previous value and the current drawdown). -/
theorem max_drawdown_monotone (pm : PortfolioManager) (closes : List (String × ℚ)) :
    pm.max_drawdown ≤ (applyCloses pm closes).max_drawdown := by
  induction closes generalizing pm with
  | nil => simp [applyCloses]
  | cons c rest ih =>
    have h1 := close_position_md_mono pm c.1 c.2
    have h2 := ih ((close_position pm c.1 c.2).2)
    simpa [applyCloses] using le_trans h1 h2

lemma counters_invariant_step (pm : PortfolioManager)
    (h : pm.total_trades = pm.winning_trades + pm.losing_trades) (op : PortfolioOp) :
    (applyOp pm op).total_trades
      = (applyOp pm op).winning_trades + (applyOp pm op).losing_trades := by
  cases op with
  | add position =>
    by_cases hc : position.size * position.entry_price > pm.account_balance.available_balance
    · simpa [applyOp, add_position, hc] using h
    · simpa [applyOp, add_position, hc] using h
  | close symbol e =>
    cases hg : dictGet pm.positions symbol with
    | none => simpa [applyOp, close_position, hg] using h
    | some position =>
      by_cases hp : pnlOf position e > 0
      · simp [applyOp, close_position, hg, hp]
        omega
      · simp [applyOp, close_position, hg, hp]
        omega

lemma counters_invariant_ops (ops : List PortfolioOp) :
    ∀ pm : PortfolioManager, pm.total_trades = pm.winning_trades + pm.losing_trades →
      (applyOps pm ops).total_trades
        = (applyOps pm ops).winning_trades + (applyOps pm ops).losing_trades := by
  induction ops with
  | nil =>
    intro pm h
    simpa [applyOps] using h
  | cons op rest ih =>
    intro pm h
    simpa [applyOps, List.foldl_cons] using
      ih (applyOp pm op) (counters_invariant_step pm h op)

/-- Claim C10: every successful close increments `total_trades` by one
and exactly one of `winning_trades` / `losing_trades`; a break-even
close (`pnl = 0`) counts as losing; over any sequence of operations on a
fresh portfolio, `total_trades = winning_trades + losing_trades`. -/
theorem close_counts_trades :
    (∀ (pm : PortfolioManager) (symbol : String) (e : ℚ) (position : Position),
      dictGet pm.positions symbol = some position →
        (close_position pm symbol e).2.total_trades = pm.total_trades + 1
        ∧ (close_position pm symbol e).2.winning_trades
            + (close_position pm symbol e).2.losing_trades
            = pm.winning_trades + pm.losing_trades + 1
        ∧ (pnlOf position e > 0 →
            (close_position pm symbol e).2.winning_trades = pm.winning_trades + 1
            ∧ (close_position pm symbol e).2.losing_trades = pm.losing_trades)
        ∧ (pnlOf position e ≤ 0 →
            (close_position pm symbol e).2.winning_trades = pm.winning_trades
            ∧ (close_position pm symbol e).2.losing_trades = pm.losing_trades + 1))
    ∧ ∀ (b : ℚ) (ops : List PortfolioOp),
        (applyOps (mkPortfolio b) ops).total_trades
          = (applyOps (mkPortfolio b) ops).winning_trades
            + (applyOps (mkPortfolio b) ops).losing_trades := by
  constructor
  · intro pm symbol e position h
    by_cases hp : pnlOf position e > 0
    · refine ⟨by simp [close_position, h], ?_, fun _ => ?_, fun hle => absurd hp (not_lt.mpr hle)⟩
      · simp [close_position, h, hp]
        omega
      · exact ⟨by simp [close_position, h, hp], by simp [close_position, h, hp]⟩
    · refine ⟨by simp [close_position, h], ?_, fun hgt => absurd hgt hp, fun _ => ?_⟩
      · simp [close_position, h, hp]
        omega
      · exact ⟨by simp [close_position, h, hp], by simp [close_position, h, hp]⟩
  · intro b ops
    exact counters_invariant_ops ops (mkPortfolio b) (by simp [mkPortfolio])

/-- Witness for `close_counts_trades`: closing the demo long position
bumps `total_trades` from 0 to 1. -/
theorem close_counts_trades_witness :
    dictGet longPM.positions "BTC-USD" = some demoLong
    ∧ (close_position longPM "BTC-USD" 52000).2.total_trades = longPM.total_trades + 1 := by
  have h : dictGet longPM.positions "BTC-USD" = some demoLong := by
    simp [longPM, mkPortfolio, dictGet]
  exact ⟨h, (close_counts_trades.1 longPM "BTC-USD" 52000 demoLong h).1⟩

/-! ## Position sizing, Kelly criterion and trailing stops
(`position_sizer.py`) -/

/-- Result dataclass `PositionSize` (the stop-loss field is always set by
`calculate_position_size`, so it is non-optional here). -/
structure PositionSize where
  base_size : ℚ
  quote_size : ℚ
  risk_amount : ℚ
  risk_percentage : ℚ
  stop_loss_price : ℚ
deriving DecidableEq

/-- Errors of the sizing routines: `riskManagement` stands for Python
`RiskManagementException` (whatever its message), `zeroDivision` for an
uncaught `ZeroDivisionError`. -/
inductive RiskErr where
  | riskManagement
  | zeroDivision
deriving DecidableEq

/-- The tail of `calculate_position_size` after `risk_per_unit` has been
determined: risk amount, raw size, min/max clamping, and the re-derive
branch when the notional would exceed the balance. -/
def sizeFrom (min_position_size max_position_size account_balance entry_price
    stop_loss_price risk_pct risk_per_unit : ℚ) : PositionSize :=
  let risk_amount := account_balance * (risk_pct / 100)
  let base_size0 := risk_amount / risk_per_unit
  let base_size1 := max base_size0 min_position_size
  let base_size2 := min base_size1 max_position_size
  let quote_size := base_size2 * entry_price
  if quote_size > account_balance then
    let base_size3 := account_balance / entry_price
    let risk_amount2 := base_size3 * risk_per_unit
    { base_size := base_size3
      quote_size := account_balance
      risk_amount := risk_amount2
      risk_percentage := risk_amount2 / account_balance * 100
      stop_loss_price := stop_loss_price }
  else
    { base_size := base_size2
      quote_size := quote_size
      risk_amount := risk_amount
      risk_percentage := risk_pct
      stop_loss_price := stop_loss_price }

/-- `PositionSizer.calculate_position_size`.  The risk limits
(`min_position_size`, `max_position_size`, `max_risk_per_trade`) are
read from settings in `__init__`; here they are parameters.  The Python
`risk_percentage or limit` idiom treats both `None` and `0.0` as unset. -/
def calculate_position_size (min_position_size max_position_size max_risk_per_trade : ℚ)
    (account_balance entry_price stop_loss_price : ℚ) (side : String)
    (risk_percentage : Option ℚ) : Except RiskErr PositionSize :=
  if account_balance ≤ 0 then .error .riskManagement
  else if entry_price ≤ 0 ∨ stop_loss_price ≤ 0 then .error .riskManagement
  else
    let risk_pct := match risk_percentage with
      | some r => if r = 0 then max_risk_per_trade else r
      | none => max_risk_per_trade
    if pyLower side = "buy" then
      if stop_loss_price ≥ entry_price then .error .riskManagement
      else .ok (sizeFrom min_position_size max_position_size account_balance entry_price
        stop_loss_price risk_pct (entry_price - stop_loss_price))
    else
      if stop_loss_price ≤ entry_price then .error .riskManagement
      else .ok (sizeFrom min_position_size max_position_size account_balance entry_price
        stop_loss_price risk_pct (stop_loss_price - entry_price))

lemma sizeFrom_base (minPS maxPS balance entry stop rp rpu : ℚ) :
    (sizeFrom minPS maxPS balance entry stop rp rpu).base_size
      = (if min (max (balance * (rp / 100) / rpu) minPS) maxPS * entry > balance
          then balance / entry
          else min (max (balance * (rp / 100) / rpu) minPS) maxPS) := by
  unfold sizeFrom
  by_cases h : min (max (balance * (rp / 100) / rpu) minPS) maxPS * entry > balance <;> simp [h]

lemma sizeFrom_quote_le (minPS maxPS balance entry stop rp rpu : ℚ) :
    (sizeFrom minPS maxPS balance entry stop rp rpu).quote_size ≤ balance := by
  unfold sizeFrom
  by_cases h : min (max (balance * (rp / 100) / rpu) minPS) maxPS * entry > balance
  · simp [h]
  · simp [h]
    exact not_lt.mp h

/-- Claim C6: with a positive balance, positive prices, a nonzero risk
percentage and the stop on the correct side of entry, sizing succeeds,
the base size is `(balance * riskPct/100) / |entry - stop|` clamped to
`[min_position_size, max_position_size]` and re-derived as
`balance / entry` when the notional would exceed the balance, and the
returned quote size never exceeds the balance. -/
theorem calculate_position_size_spec (minPS maxPS dflt balance entry stop rp : ℚ) (side : String)
    (hb : 0 < balance) (he : 0 < entry) (hs : 0 < stop) (hrp : rp ≠ 0)
    (hside : if pyLower side = "buy" then stop < entry else entry < stop) :
    ∃ r, calculate_position_size minPS maxPS dflt balance entry stop side (some rp)
        = Except.ok r
      ∧ r.base_size = (if min (max (balance * (rp / 100) / |entry - stop|) minPS) maxPS * entry
            > balance
          then balance / entry
          else min (max (balance * (rp / 100) / |entry - stop|) minPS) maxPS)
      ∧ r.quote_size ≤ balance := by
  by_cases hbuy : pyLower side = "buy"
  · have hlt : stop < entry := by simpa [hbuy] using hside
    have habs : |entry - stop| = entry - stop := abs_of_pos (by linarith)
    refine ⟨sizeFrom minPS maxPS balance entry stop rp (entry - stop), ?_, ?_, ?_⟩
    · simp [calculate_position_size, hbuy, not_le.mpr hb, not_le.mpr he, not_le.mpr hs,
        not_le.mpr hlt, hrp]
    · rw [habs]
      exact sizeFrom_base minPS maxPS balance entry stop rp (entry - stop)
    · exact sizeFrom_quote_le minPS maxPS balance entry stop rp (entry - stop)
  · have hlt : entry < stop := by simpa [hbuy] using hside
    have habs : |entry - stop| = stop - entry := by
      rw [abs_of_neg (by linarith : entry - stop < 0)]
      ring
    refine ⟨sizeFrom minPS maxPS balance entry stop rp (stop - entry), ?_, ?_, ?_⟩
    · simp [calculate_position_size, hbuy, not_le.mpr hb, not_le.mpr he, not_le.mpr hs,
        not_le.mpr hlt, hrp]
    · rw [habs]
      exact sizeFrom_base minPS maxPS balance entry stop rp (stop - entry)
    · exact sizeFrom_quote_le minPS maxPS balance entry stop rp (stop - entry)

/-- Witness for `calculate_position_size_spec`: entry 50000, stop 48500,
long, risk 2% of balance 10000 gives risk amount 200, risk per unit
1500, base size 2/15 (approximately 0.1333), with the quote size within
the balance. -/
theorem calculate_position_size_spec_witness :
    ∃ r, calculate_position_size (1/1000) 10 2 10000 50000 48500 "buy" (some 2)
        = Except.ok r
      ∧ r.base_size = 2/15
      ∧ r.quote_size ≤ 10000 := by
  obtain ⟨r, hok, hbase, hq⟩ :=
    calculate_position_size_spec (1/1000) 10 2 10000 50000 48500 2 "buy"
      (by norm_num) (by norm_num) (by norm_num) (by norm_num)
      (by rw [if_pos (show pyLower "buy" = "buy" by decide)]; norm_num)
  refine ⟨r, hok, ?_, hq⟩
  rw [hbase, abs_of_pos (by norm_num : (0:ℚ) < 50000 - 48500)]
  norm_num [max_def, min_def]

/-- `PositionSizer.calculate_kelly_criterion`.  When `avg_win = 0` the
Python expression `(b * p - q) / b` divides by `b = 0.0` and raises
`ZeroDivisionError`, modelled by the `zeroDivision` error. -/
def calculate_kelly_criterion (win_rate avg_win avg_loss : ℚ) : Except RiskErr ℚ :=
  if avg_loss ≤ 0 then .error .riskManagement
  else
    let b := avg_win / avg_loss
    if b = 0 then .error .zeroDivision
    else
      let p := win_rate
      let q := 1 - win_rate
      let kelly_fraction := (b * p - q) / b
      .ok (max 0 (min kelly_fraction (1/4)) * 100)

/-- Counterexample to claim C8 as stated: at `win_rate = 1/2`,
`avg_win = 2`, `avg_loss = 1` the Kelly fraction clamps to 1/4 but the
function returns 25 (a percentage), and at `avg_win = 0` (allowed by the
claim) the computation divides by zero instead of returning a value. -/
theorem kelly_claim_false :
    calculate_kelly_criterion (1/2) 2 1 = Except.ok 25
    ∧ (25:ℚ) ≠ 1/4
    ∧ calculate_kelly_criterion (1/2) 0 1 = Except.error RiskErr.zeroDivision := by
  refine ⟨?_, by norm_num, ?_⟩
  · norm_num [calculate_kelly_criterion, max_def, min_def]
  · norm_num [calculate_kelly_criterion]

lemma clampMul_bounds (x : ℚ) :
    0 ≤ max 0 (min x (1/4)) * 100 ∧ max 0 (min x (1/4)) * 100 ≤ 25 := by
  constructor
  · exact mul_nonneg (le_max_left 0 _) (by norm_num)
  · have hle : max 0 (min x (1/4)) ≤ 1/4 := max_le (by norm_num) (min_le_right _ _)
    exact (mul_le_mul_of_nonneg_right hle (by norm_num)).trans (by norm_num)

/-- Claim C8 (amended): for `win_rate ∈ [0,1]`, `avg_win > 0` and
`avg_loss > 0`, `calculate_kelly_criterion` returns the Kelly fraction
`(b*p - q)/b` clamped to `[0, 1/4]` and then multiplied by 100 (a
percentage), so the returned value lies in `[0, 25]`. -/
theorem kelly_amended (win_rate avg_win avg_loss : ℚ)
    (h0 : 0 ≤ win_rate) (h1 : win_rate ≤ 1) (hw : 0 < avg_win) (hl : 0 < avg_loss) :
    calculate_kelly_criterion win_rate avg_win avg_loss
      = Except.ok (max 0 (min ((avg_win / avg_loss * win_rate - (1 - win_rate))
          / (avg_win / avg_loss)) (1/4)) * 100)
    ∧ ∀ v, calculate_kelly_criterion win_rate avg_win avg_loss = Except.ok v →
        0 ≤ v ∧ v ≤ 25 := by
  have hl' : ¬ avg_loss ≤ 0 := not_le.mpr hl
  have hb : avg_win / avg_loss ≠ 0 := div_ne_zero hw.ne' hl.ne'
  have h1 : calculate_kelly_criterion win_rate avg_win avg_loss
      = Except.ok (max 0 (min ((avg_win / avg_loss * win_rate - (1 - win_rate))
          / (avg_win / avg_loss)) (1/4)) * 100) := by
    simp [calculate_kelly_criterion, hl', hb]
  refine ⟨h1, ?_⟩
  intro v hv
  rw [h1] at hv
  injection hv with hv'
  rw [← hv']
  exact clampMul_bounds _

/-- Witness for `kelly_amended` at `win_rate = 1/2`, `avg_win = 2`,
`avg_loss = 1`. -/
theorem kelly_amended_witness :
    calculate_kelly_criterion (1/2) 2 1
      = Except.ok (max 0 (min (((2:ℚ) / 1 * (1/2) - (1 - 1/2)) / ((2:ℚ) / 1)) (1/4)) * 100) :=
  (kelly_amended (1/2) 2 1 (by norm_num) (by norm_num) (by norm_num) (by norm_num)).1

/-- `StopLossManager.update_trailing_stop`.  Any side other than
(case-insensitive) `"buy"` takes the sell branch, as in the source. -/
def update_trailing_stop (current_price entry_price current_stop : ℚ) (side : String)
    (trailing_percentage : ℚ) : ℚ :=
  if pyLower side = "buy" then
    max current_stop (current_price * (1 - trailing_percentage / 100))
  else
    min current_stop (current_price * (1 + trailing_percentage / 100))

/-- Claim C9: the trailing stop only tightens: for a long (`"buy"`)
position the updated stop is at least the current stop, for a short
(`"sell"`) position it is at most the current stop. -/
theorem update_trailing_stop_tightens
    (current_price entry_price current_stop trailing_percentage : ℚ) :
    current_stop
        ≤ update_trailing_stop current_price entry_price current_stop "buy" trailing_percentage
    ∧ update_trailing_stop current_price entry_price current_stop "sell" trailing_percentage
        ≤ current_stop := by
  constructor
  · unfold update_trailing_stop
    rw [if_pos (show pyLower "buy" = "buy" by decide)]
    exact le_max_left _ _
  · unfold update_trailing_stop
    rw [if_neg (show ¬ pyLower "sell" = "buy" by decide)]
    exact min_le_left _ _

/-! ## Technical indicators
(`src/signals/indicators/technical_indicators.py`) -/

/-- The `SignalType` enum. -/
inductive SignalType where
  | buy
  | sell
  | hold
  | strong_buy
  | strong_sell
deriving DecidableEq

/-- The part of an `IndicatorResult` that `combine_signals` reads. -/
structure CombineInput where
  signal : SignalType
  strength : ℚ

/-- The three scores in the `value` dict returned by `combine_signals`. -/
structure CombineScores where
  buy_score : ℚ
  sell_score : ℚ
  hold_score : ℚ
deriving DecidableEq

/-- One iteration of the accumulation loop in `combine_signals`. -/
def combineStep (acc : CombineScores) (p : CombineInput × ℚ) : CombineScores :=
  let weighted_strength := p.1.strength * p.2
  match p.1.signal with
  | .buy | .strong_buy => { acc with buy_score := acc.buy_score + weighted_strength }
  | .sell | .strong_sell => { acc with sell_score := acc.sell_score + weighted_strength }
  | .hold => { acc with hold_score := acc.hold_score + weighted_strength }

/-- `TechnicalIndicators.combine_signals` (score part).  `none` models
the `InvalidIndicatorException` raised on an empty indicator list or a
length mismatch; a `none` weight list defaults to all ones. -/
def combine_signals (indicators : List CombineInput) (weights : Option (List ℚ)) :
    Option CombineScores :=
  if indicators.isEmpty then none
  else
    let ws0 := match weights with
      | none => List.replicate indicators.length (1:ℚ)
      | some w => w
    if ws0.length ≠ indicators.length then none
    else
      let total_weight := ws0.sum
      let ws := ws0.map (fun w => w / total_weight)
      some ((indicators.zip ws).foldl combineStep { buy_score := 0, sell_score := 0, hold_score := 0 })

/-- Claim C1 fails on the code: at the indicator strengths and weights of
the repository's own `test_combine_signals` (strengths 0.8, 0.9, 0.5,
0.7 with weights 1, 1.5, 1, 1.2) the three scores sum to 349/470
(about 0.743), not 1: the loop accumulates normalized-weight times
strength, so the total is the weighted mean of the strengths. -/
theorem combine_signals_sum_fails :
    (combine_signals
        [{ signal := SignalType.buy, strength := 8/10 },
         { signal := SignalType.strong_buy, strength := 9/10 },
         { signal := SignalType.hold, strength := 5/10 },
         { signal := SignalType.buy, strength := 7/10 }]
        (some [1, 3/2, 1, 6/5])).map
        (fun s => s.buy_score + s.sell_score + s.hold_score)
      = some (349/470)
    ∧ (349:ℚ)/470 ≠ 1 := by
  constructor
  · norm_num [combine_signals, combineStep, List.zip, List.zipWith, List.foldl]
  · norm_num

/-- IEEE floating-point values that the pandas RSI pipeline can produce:
NaN, the two infinities, and finite values (modelled exactly as `ℚ`). -/
inductive PVal where
  | nan
  | inf
  | ninf
  | val (q : ℚ)
deriving DecidableEq

/-- Float `c + x` (used as `1 + rs`). -/
def PVal.addQ (c : ℚ) : PVal → PVal
  | .nan => .nan
  | .inf => .inf
  | .ninf => .ninf
  | .val q => .val (c + q)

/-- Float `c / x` (used as `100 / (1 + rs)`): division by NaN is NaN, by
an infinity is 0, by zero is NaN or a signed infinity. -/
def PVal.qdivP (c : ℚ) : PVal → PVal
  | .nan => .nan
  | .inf => .val 0
  | .ninf => .val 0
  | .val q =>
    if q = 0 then (if c = 0 then .nan else if 0 < c then .inf else .ninf)
    else .val (c / q)

/-- Float `c - x` (used as `100 - ...`). -/
def PVal.qsubP (c : ℚ) : PVal → PVal
  | .nan => .nan
  | .inf => .ninf
  | .ninf => .inf
  | .val q => .val (c - q)

/-- Float comparison `x >= c`; any comparison with NaN is false. -/
def PVal.geQ : PVal → ℚ → Bool
  | .nan, _ => false
  | .inf, _ => true
  | .ninf, _ => false
  | .val q, c => decide (c ≤ q)

/-- Float comparison `x <= c`; any comparison with NaN is false. -/
def PVal.leQ : PVal → ℚ → Bool
  | .nan, _ => false
  | .inf, _ => false
  | .ninf, _ => true
  | .val q, c => decide (q ≤ c)

/-- Float division of two finite series entries (`avg_gains/avg_losses`):
`0/0 = NaN`, `a/0 = ±inf` for `a ≠ 0`. -/
def fdiv (a b : ℚ) : PVal :=
  if b = 0 then (if a = 0 then .nan else if 0 < a then .inf else .ninf)
  else .val (a / b)

/-- `Series.diff()`: first entry NaN, then successive differences. -/
def diffSeries : List ℚ → List PVal
  | [] => []
  | x :: xs => PVal.nan :: List.zipWith (fun b a => PVal.val (b - a)) xs (x :: xs)

/-- `delta.where(delta > 0, 0)`: NaN and non-positive entries become 0. -/
def gainsOf (delta : List PVal) : List ℚ :=
  delta.map (fun d => match d with
    | .val q => if 0 < q then q else 0
    | _ => 0)

/-- `-delta.where(delta < 0, 0)`: negated negative entries, otherwise 0. -/
def lossesOf (delta : List PVal) : List ℚ :=
  delta.map (fun d => match d with
    | .val q => if q < 0 then -q else 0
    | _ => 0)

/-- Running state of `ewm(span=...).mean()` with the pandas default
`adjust=True`: weighted numerator and denominator with decay factor
`a = 1 - alpha`. -/
def ewmAux (a num den : ℚ) : List ℚ → List ℚ
  | [] => []
  | x :: xs =>
    let num' := x + a * num
    let den' := 1 + a * den
    num' / den' :: ewmAux a num' den' xs

/-- `Series.ewm(span=span).mean()` with `alpha = 2/(span+1)`. -/
def ewmMean (span : ℕ) (xs : List ℚ) : List ℚ :=
  ewmAux (1 - 2 / ((span : ℚ) + 1)) 0 0 xs

/-- The value and signal of the `IndicatorResult` returned by `rsi`. -/
structure RsiResult where
  value : PVal
  signal : SignalType
deriving DecidableEq

/-- `TechnicalIndicators.rsi` (value and signal; strength and metadata
are not needed by the claims).  `none` models the
`InsufficientDataException` from `validate_data`. -/
def rsi (prices : List ℚ) (period : ℕ) (overbought oversold : ℚ) : Option RsiResult :=
  if prices.length < period + 1 then none
  else
    let delta := diffSeries prices
    let gains := gainsOf delta
    let losses := lossesOf delta
    let avg_gains := ewmMean period gains
    let avg_losses := ewmMean period losses
    let rs := List.zipWith fdiv avg_gains avg_losses
    let rsiSeries := rs.map (fun r => PVal.qsubP 100 (PVal.qdivP 100 (PVal.addQ 1 r)))
    match rsiSeries.getLast? with
    | none => none
    | some current_rsi =>
      let signal :=
        if current_rsi.geQ overbought then SignalType.sell
        else if current_rsi.leQ oversold then SignalType.buy
        else SignalType.hold
      some { value := current_rsi, signal := signal }

lemma zipWith_sub_replicate (c : ℚ) (n : ℕ) :
    List.zipWith (fun b a => PVal.val (b - a)) (List.replicate n c) (List.replicate (n + 1) c)
      = List.replicate n (PVal.val 0) := by
  induction n with
  | zero => rfl
  | succ n ih =>
    simp only [List.replicate_succ, List.zipWith_cons_cons, sub_self] at ih ⊢
    rw [ih]

lemma diffSeries_replicate (c : ℚ) (n : ℕ) :
    diffSeries (List.replicate (n + 1) c) = PVal.nan :: List.replicate n (PVal.val 0) := by
  show PVal.nan :: List.zipWith (fun b a => PVal.val (b - a))
      (List.replicate n c) (List.replicate (n + 1) c)
    = PVal.nan :: List.replicate n (PVal.val 0)
  rw [zipWith_sub_replicate]

lemma gainsOf_flat (n : ℕ) :
    gainsOf (PVal.nan :: List.replicate n (PVal.val 0)) = List.replicate (n + 1) 0 := by
  simp [gainsOf, List.map_replicate, List.replicate_succ, lt_self_iff_false]

lemma lossesOf_flat (n : ℕ) :
    lossesOf (PVal.nan :: List.replicate n (PVal.val 0)) = List.replicate (n + 1) 0 := by
  simp [lossesOf, List.map_replicate, List.replicate_succ, lt_self_iff_false]

lemma ewmAux_zeros (a : ℚ) (m : ℕ) :
    ∀ den : ℚ, ewmAux a 0 den (List.replicate m 0) = List.replicate m 0 := by
  induction m with
  | zero =>
    intro den
    simp [ewmAux]
  | succ m ih =>
    intro den
    simp only [List.replicate_succ, ewmAux, mul_zero, add_zero, zero_add, zero_div]
    rw [ih]

lemma ewmMean_zeros (span m : ℕ) :
    ewmMean span (List.replicate m 0) = List.replicate m 0 := by
  unfold ewmMean
  exact ewmAux_zeros _ m _

lemma zipWith_fdiv_zeros (m : ℕ) :
    List.zipWith fdiv (List.replicate m (0:ℚ)) (List.replicate m (0:ℚ))
      = List.replicate m PVal.nan := by
  induction m with
  | zero => rfl
  | succ m ih =>
    simp only [List.replicate_succ, List.zipWith_cons_cons, ih, fdiv]
    simp

lemma map_rsiStep_nan (m : ℕ) :
    (List.replicate m PVal.nan).map
        (fun r => PVal.qsubP 100 (PVal.qdivP 100 (PVal.addQ 1 r)))
      = List.replicate m PVal.nan := by
  simp [List.map_replicate, PVal.addQ, PVal.qdivP, PVal.qsubP]

lemma getLast_replicate_pval (x : PVal) (m : ℕ) :
    (List.replicate (m + 1) x).getLast? = some x := by
  induction m with
  | zero => rfl
  | succ m ih =>
    rw [List.replicate_succ, List.replicate_succ, List.getLast?_cons_cons,
      ← List.replicate_succ]
    exact ih

lemma rsi_replicate_nan (n period : ℕ) (c overbought oversold : ℚ)
    (h : ¬ (n + 1 < period + 1)) :
    rsi (List.replicate (n + 1) c) period overbought oversold
      = some { value := PVal.nan, signal := SignalType.hold } := by
  unfold rsi
  rw [if_neg (by simpa using h)]
  simp only [diffSeries_replicate, gainsOf_flat, lossesOf_flat, ewmMean_zeros,
    zipWith_fdiv_zeros, map_rsiStep_nan, getLast_replicate_pval, PVal.geQ, PVal.leQ,
    Bool.false_eq_true, if_false]

/-- Claim C2 fails on the code: on the repository's own flat-series test
input (`[100.0]*50`, period 14) every delta is 0, both EWM averages are
0, `rs = 0/0` is NaN, and the returned RSI value is NaN (the NaN
comparisons fall through to the Hold branch), not a neutral value near
50.  No division-by-zero is raised, but there is no fallback to RS=1. -/
theorem rsi_flat_is_nan :
    rsi (List.replicate 50 100) 14 70 30
      = some { value := PVal.nan, signal := SignalType.hold } :=
  rsi_replicate_nan 49 14 100 70 30 (by norm_num)

/-! ## Rate limiter (`rate_limiter.py`)

`RateLimiter.acquire` first calls `can_make_request()` — which takes
`self._lock`, reads the current one-second bucket and compares it with
`requests_per_second` — and, when that returns `True`, calls
`self._record_request()`, which increments the buckets WITHOUT holding
the lock.  The check and the increment are therefore not atomic.  We
model one second of real time (all calls land in the same bucket) as a
transition system over thread program counters: `check i` is thread
`i`'s locked `can_make_request` returning `True` (only enabled when the
bucket is below the cap), `record i` is its unlocked `_record_request`. -/

/-- Program counter of one thread inside `acquire`. -/
inductive ThreadPC where
  | start
  | passed
  | finished
deriving DecidableEq

/-- Shared one-second bucket count plus the per-thread program counters. -/
structure RLState where
  secondCount : ℕ
  threads : List ThreadPC
deriving DecidableEq

/-- One atomic event of some thread. -/
inductive RLAction where
  | check (i : ℕ)
  | record (i : ℕ)

/-- One step of the interleaving semantics; `none` when the event is not
enabled (the thread is not at that point, or the locked check fails). -/
def rlStep (cap : ℕ) (s : RLState) : RLAction → Option RLState
  | .check i =>
    match s.threads[i]? with
    | some .start =>
      if s.secondCount < cap then
        some { s with threads := s.threads.set i .passed }
      else none
    | _ => none
  | .record i =>
    match s.threads[i]? with
    | some .passed =>
      some { secondCount := s.secondCount + 1, threads := s.threads.set i .finished }
    | _ => none

/-- Run a whole interleaving from a state. -/
def rlRun (cap : ℕ) : RLState → List RLAction → Option RLState
  | s, [] => some s
  | s, a :: rest =>
    match rlStep cap s a with
    | some s' => rlRun cap s' rest
    | none => none

/-- Claim C3 fails on the code: with `requests_per_second = 1` and two
threads, the interleaving check(0), check(1), record(0), record(1) is
enabled step by step — both locked checks read a bucket count of 0 — and
ends with 2 requests recorded in the one-second bucket, exceeding the
cap of 1.  The check-then-record pair in `acquire` is not atomic, so the
per-second cap can be exceeded under concurrent callers. -/
theorem rate_limiter_race :
    (rlRun 1 { secondCount := 0, threads := [ThreadPC.start, ThreadPC.start] }
        [RLAction.check 0, RLAction.check 1, RLAction.record 0, RLAction.record 1]).map
        RLState.secondCount
      = some 2
    ∧ (1:ℕ) < 2 := by decide
